import Mathlib

/-!
Shallow embedding of the shopify-lottracker-backend order/batch logic.

The repository is a Node/Express + PostgreSQL service.  Its durable state is
four relations: `products`, `batches`, `orders`, `order_line_items`
(consumptions), modelled below as lists of records plus a serial counter.
The operations embedded here are:

  * `processOrder`  — the shared order-processing function of the current
    server file (webhook `orders/create` and `POST /api/orders` both call it):
    insert order with `ON CONFLICT (shopify_order_id) DO NOTHING`, then per
    line item ensure the product, allocate FEFO from existing batches
    (`SELECT ... WHERE product_id = $1 AND quantity > 0 ORDER BY expiry_date
    ASC NULLS LAST, created_at ASC`), and on shortfall fetch metafield hints
    and synthesize a new batch of quantity `defaultBatchQuantity || 100`,
    consuming `min(rest, newQty)` from it.  The whole body runs in one SQL
    transaction: any thrown error leads to `ROLLBACK`.
  * `processOrderV0` — the older inline `POST /api/orders` handler (second
    server file): plain `INSERT INTO orders` (a duplicate key aborts the
    transaction), and on shortfall the synthesized batch is decremented by
    the full outstanding amount, without the `min`.
  * `updateBatch`   — `PUT /api/batches/:id`:
    `UPDATE batches SET expiry_date = $1, quantity = $2` with
    `expiryDate || null` and `Number.parseInt(quantity, 10) || 0`.
  * `deleteBatch`   — `DELETE /api/batches/:id`: refuses (409) when any
    `order_line_items` row references the batch, 404 when absent, else deletes.
  * `findOrdersByBatchNumber` — `GET /api/orders/batch/:batchNumber`: the
    four-way join ordered by `o.order_date DESC, o.id DESC`; an empty result
    is answered with a 404 error.

Dates and timestamps are modelled as natural numbers; quantities as integers
(the SQL integer columns are not constrained to be non-negative, and some
paths can in fact drive them negative).  The Shopify metafield lookup is
modelled as an explicit resolver argument that may fail, which is the one
mid-transaction step of `processOrder` that can throw.
-/

/-- A row of the `products` table. -/
structure Product where
  id : Nat
  shopifyProductId : String
  name : Option String
  sku : Option String
deriving DecidableEq, Repr

/-- A row of the `batches` table.  `expiryDate = none` models SQL NULL. -/
structure Batch where
  id : Nat
  productId : Nat
  batchNumber : String
  expiryDate : Option Nat
  quantity : Int
  createdAt : Nat
deriving DecidableEq, Repr

/-- A row of the `orders` table; `shopifyOrderId` carries a UNIQUE constraint. -/
structure Order where
  id : Nat
  shopifyOrderId : String
  customerName : Option String
  orderDate : Nat
deriving DecidableEq, Repr

/-- A row of `order_line_items`: one consumption of a batch by an order. -/
structure LineItemRow where
  orderId : Nat
  productId : Nat
  batchId : Nat
  quantity : Int
deriving DecidableEq, Repr

/-- The durable state: the four relations plus the serial id counter. -/
structure DB where
  products : List Product
  batches : List Batch
  orders : List Order
  orderLineItems : List LineItemRow
  nextId : Nat
deriving DecidableEq, Repr

/-- One line item of an inbound order payload. -/
structure LineItem where
  shopifyProductId : String
  productName : Option String
  productSku : Option String
  quantity : Int
deriving DecidableEq, Repr

/-- An inbound order payload, as handed to `processOrder`. -/
structure OrderPayload where
  shopifyOrderId : String
  customerName : Option String
  orderDate : Nat
  lineItems : List LineItem
deriving DecidableEq, Repr

/-- The two optional Shopify metafield hints fetched on a shortfall. -/
structure Hints where
  shelfLifeDays : Option Nat
  defaultBatchQuantity : Option Int
deriving DecidableEq, Repr

/-- Errors that abort `processOrder` / `processOrderV0` (whole-transaction
rollback or pre-transaction rejection). -/
inductive PErr where
  | invalidPayload
  | resolverFailed
  | duplicateOrder
deriving DecidableEq, Repr

/-- Insert an element into a list sorted by `le`, keeping it sorted (helper
realising SQL ORDER BY as a stable insertion sort; it is structurally
recursive so concrete states evaluate inside the kernel). -/
def insertOrdered {α : Type} (le : α → α → Bool) (a : α) : List α → List α
  | [] => [a]
  | b :: rest => if le a b then a :: b :: rest else b :: insertOrdered le a rest

/-- Sort a list by the comparator `le` (the embedding of SQL ORDER BY). -/
def orderBy {α : Type} (le : α → α → Bool) : List α → List α
  | [] => []
  | a :: rest => insertOrdered le a (orderBy le rest)

/-- The comparator realised by `ORDER BY expiry_date ASC NULLS LAST,
created_at ASC` (PostgreSQL defaults to NULLS LAST for ASC, so the older
query without the explicit NULLS LAST orders identically). -/
def batchLE (a b : Batch) : Bool :=
  match a.expiryDate, b.expiryDate with
  | none, none => decide (a.createdAt ≤ b.createdAt)
  | none, some _ => false
  | some _, none => true
  | some ea, some eb =>
      if ea = eb then decide (a.createdAt ≤ b.createdAt) else decide (ea < eb)

/-- The candidate query `SELECT id, quantity FROM batches WHERE product_id = $1 AND quantity > 0
ORDER BY expiry_date ASC NULLS LAST, created_at ASC`. -/
def fulfillableBatches (db : DB) (pid : Nat) : List Batch :=
  orderBy batchLE (db.batches.filter (fun b => decide (b.productId = pid) && decide (0 < b.quantity)))

/-- The decrement statement `UPDATE batches SET quantity = quantity - $1 WHERE id = $2`. -/
def decrementBatch (db : DB) (bid : Nat) (amt : Int) : DB :=
  let bs := db.batches.map (fun b => if b.id = bid then { b with quantity := b.quantity - amt } else b)
  { db with batches := bs }

/-- The consumption insert `INSERT INTO order_line_items (order_id, product_id, batch_id, quantity)`. -/
def insertLineItem (db : DB) (oid pid bid : Nat) (q : Int) : DB :=
  { db with orderLineItems := db.orderLineItems ++ [⟨oid, pid, bid, q⟩] }

/-- The batch insert `INSERT INTO batches (product_id, batch_number, expiry_date, quantity)`,
returning the fresh id. -/
def insertBatch (db : DB) (pid : Nat) (num : String) (expiry : Option Nat)
    (qty : Int) (now : Nat) : DB × Nat :=
  let bid := db.nextId
  ({ db with batches := db.batches ++ [⟨bid, pid, num, expiry, qty, now⟩],
             nextId := db.nextId + 1 }, bid)

/-- Resolve the internal product, inserting a `products` row on first sight
(`SELECT id, sku FROM products WHERE shopify_product_id = $1`, else
`INSERT INTO products ... RETURNING id, sku`). -/
def ensureProduct (db : DB) (it : LineItem) : DB × Nat × Option String :=
  match db.products.find? (fun p => decide (p.shopifyProductId = it.shopifyProductId)) with
  | some p => (db, p.id, p.sku)
  | none =>
      let pid := db.nextId
      ({ db with products := db.products ++ [⟨pid, it.shopifyProductId, it.productName, it.productSku⟩],
                 nextId := db.nextId + 1 }, pid, it.productSku)

/-- The allocation walk over the ordered candidate batches: while quantity
remains, consume `Math.min(quantityToFulfill, batch.quantity)` from each
candidate, decrement that batch, insert one consumption row, and continue
with the reduced requirement.  Returns the updated state and the still
outstanding quantity. -/
def allocLoop (oid pid : Nat) (q : Int) (cands : List Batch) (db : DB) : DB × Int :=
  match cands with
  | [] => (db, q)
  | c :: rest =>
      if q ≤ 0 then (db, q)
      else
        let pick := min q c.quantity
        let db1 := decrementBatch db c.id pick
        let db2 := insertLineItem db1 oid pid c.id pick
        allocLoop oid pid (q - pick) rest db2

/-- The quantity of a synthesized batch:
`defaultBatchQuantity ? parseInt(defaultBatchQuantity, 10) : 100`. -/
def synthQty (h : Hints) : Int :=
  h.defaultBatchQuantity.getD 100

/-- The synthesized batch number
`(sku || 'PROD') + '-' + <date component>-<timestamp>`; the date formatting is
abstracted into the timestamp argument. -/
def mkBatchNumber (sku : Option String) (now : Nat) : String :=
  sku.getD ("PROD") ++ "-" ++ toString now

/-- The shortfall branch of `processOrder` (current server file): fetch no
further stock, synthesize one batch of quantity `synthQty hints` with expiry
`now + shelfLifeDays` when the hint is present, then consume
`pickRest = Math.min(quantityToFulfill, newBatchQty)` from it and record one
consumption row.  Any remaining shortfall beyond `pickRest` is only logged
(`console.warn`) and otherwise ignored. -/
def synthesizeAndConsume (hints : Hints) (now oid pid : Nat) (sku : Option String)
    (need : Int) (db : DB) : DB :=
  let newQty := synthQty hints
  let expiry := hints.shelfLifeDays.map (fun d => now + d)
  let r3 := insertBatch db pid (mkBatchNumber sku now) expiry newQty now
  let pickRest := min need newQty
  insertLineItem (decrementBatch r3.1 r3.2 pickRest) oid pid r3.2 pickRest

/-- Processing of one line item inside `processOrder` (current server file):
ensure the product, allocate from existing FEFO candidates, and on a
remaining shortfall resolve the metafield hints and run the synthesis
branch. -/
def processItem (resolver : String → Except Unit Hints) (now oid : Nat)
    (db : DB) (item : LineItem) : Except PErr DB :=
  let r1 := ensureProduct db item
  let r2 := allocLoop oid r1.2.1 item.quantity (fulfillableBatches r1.1 r1.2.1) r1.1
  if 0 < r2.2 then
    match resolver item.shopifyProductId with
    | .error _ => .error .resolverFailed
    | .ok hints => .ok (synthesizeAndConsume hints now oid r1.2.1 r1.2.2 r2.2 r2.1)
  else .ok r2.1

/-- The order insert `INSERT INTO orders ... ON CONFLICT (shopify_order_id) DO NOTHING
RETURNING id`, followed by a `SELECT id` of the pre-existing row when the
insert was skipped. -/
def insertOrderOnConflict (db : DB) (p : OrderPayload) : DB × Nat :=
  match db.orders.find? (fun o => decide (o.shopifyOrderId = p.shopifyOrderId)) with
  | some o => (db, o.id)
  | none =>
      let oid := db.nextId
      ({ db with orders := db.orders ++ [⟨oid, p.shopifyOrderId, p.customerName, p.orderDate⟩],
                 nextId := db.nextId + 1 }, oid)

/-- The function `processOrder(shop, payload)` of the current server file.  The initial
payload check throws `Invalid order payload`; everything after `BEGIN` is one
transaction, so a resolver failure aborts with no state escaping.  On success
it returns the new state and the order's internal id. -/
def processOrder (resolver : String → Except Unit Hints) (now : Nat)
    (db : DB) (p : OrderPayload) : Except PErr (DB × Nat) :=
  if p.shopifyOrderId = "" ∨ p.lineItems = [] then .error .invalidPayload
  else
    let r := insertOrderOnConflict db p
    match p.lineItems.foldlM (fun s it => processItem resolver now r.2 s it) r.1 with
    | .error e => .error e
    | .ok db2 => .ok (db2, r.2)

/-- Processing of one line item in the older inline `POST /api/orders`
handler: identical up to the shortfall branch, where the synthesized batch is
decremented by the full outstanding `quantityToFulfill` (no `min`) and the
consumption row records that full amount. -/
def processItemV0 (resolver : String → Except Unit Hints) (now oid : Nat)
    (db : DB) (item : LineItem) : Except PErr DB :=
  let r1 := ensureProduct db item
  let r2 := allocLoop oid r1.2.1 item.quantity (fulfillableBatches r1.1 r1.2.1) r1.1
  if 0 < r2.2 then
    match resolver item.shopifyProductId with
    | .error _ => .error .resolverFailed
    | .ok hints =>
        let r3 := insertBatch r2.1 r1.2.1 (mkBatchNumber r1.2.2 now)
          (hints.shelfLifeDays.map (fun d => now + d)) (synthQty hints) now
        .ok (insertLineItem (decrementBatch r3.1 r3.2 r2.2) oid r1.2.1 r3.2 r2.2)
  else .ok r2.1

/-- The older inline `POST /api/orders` handler: a plain
`INSERT INTO orders ... RETURNING id` (a duplicate external order id raises
the unique-key error and rolls the transaction back), then the same per-item
loop with the unguarded synthesis decrement. -/
def processOrderV0 (resolver : String → Except Unit Hints) (now : Nat)
    (db : DB) (p : OrderPayload) : Except PErr (DB × Nat) :=
  if p.shopifyOrderId = "" ∨ p.lineItems = [] then .error .invalidPayload
  else if db.orders.any (fun o => decide (o.shopifyOrderId = p.shopifyOrderId)) then
    .error .duplicateOrder
  else
    let oid := db.nextId
    let db1 : DB :=
      { db with orders := db.orders ++ [⟨oid, p.shopifyOrderId, p.customerName, p.orderDate⟩],
                nextId := db.nextId + 1 }
    match p.lineItems.foldlM (fun s it => processItemV0 resolver now oid s it) db1 with
    | .error e => .error e
    | .ok db2 => .ok (db2, oid)

/-- The COMMIT/ROLLBACK wrapper: a successful body commits the new state, any
thrown error triggers `ROLLBACK`, leaving the caller with the original
state. -/
def runProcessOrder (resolver : String → Except Unit Hints) (now : Nat)
    (db : DB) (p : OrderPayload) : DB × Except PErr Nat :=
  match processOrder resolver now db p with
  | .ok r => (r.1, .ok r.2)
  | .error e => (db, .error e)

/-- The quantity written by `PUT /api/batches/:id`:
`Number.parseInt(quantity, 10) || 0`.  A missing field or a non-numeric
string parses to NaN, and `NaN || 0` is `0`; a numeric value is kept
(`0 || 0` is again `0`). -/
inductive QtyIn where
  | num (n : Int)
  | nonNumeric
deriving DecidableEq, Repr

/-- Evaluation of `Number.parseInt(quantity, 10) || 0` on the request body's
optional `quantity` field. -/
def parseQtyOrZero : Option QtyIn → Int
  | some (.num n) => n
  | some .nonNumeric => 0
  | none => 0

/-- Error outcome of `PUT /api/batches/:id`. -/
inductive UpdErr where
  | notFound
deriving DecidableEq, Repr

/-- Route `PUT /api/batches/:id`: `UPDATE batches SET expiry_date = $1, quantity =
$2 WHERE id = $3 RETURNING *` with parameters `expiryDate || null` and
`Number.parseInt(quantity, 10) || 0`; 404 when no row matches.  No check of
`order_line_items` is made. -/
def updateBatch (db : DB) (bid : Nat) (expiry : Option Nat)
    (qty : Option QtyIn) : Except UpdErr DB :=
  if db.batches.any (fun b => decide (b.id = bid)) then
    let bs := db.batches.map (fun b =>
      if b.id = bid then { b with expiryDate := expiry, quantity := parseQtyOrZero qty } else b)
    .ok { db with batches := bs }
  else .error .notFound

/-- Error outcomes of `DELETE /api/batches/:id`. -/
inductive DelErr where
  | hasOrders
  | notFound
deriving DecidableEq, Repr

/-- Route `DELETE /api/batches/:id`: first `SELECT 1 FROM order_line_items WHERE
batch_id = $1 LIMIT 1` — any hit answers 409 and deletes nothing; then
`DELETE FROM batches WHERE id = $1 RETURNING *` — no row means 404. -/
def deleteBatch (db : DB) (bid : Nat) : Except DelErr DB :=
  if db.orderLineItems.any (fun li => decide (li.batchId = bid)) then .error .hasOrders
  else if db.batches.any (fun b => decide (b.id = bid)) then
    .ok { db with batches := db.batches.filter (fun b => ! decide (b.id = bid)) }
  else .error .notFound

/-- One row of the traceability query result. -/
structure TraceRow where
  orderId : String
  customer : Option String
  date : Nat
  productName : Option String
  quantity : Int
deriving DecidableEq, Repr

/-- Error outcome of `GET /api/orders/batch/:batchNumber`. -/
inductive TraceErr where
  | notFound
deriving DecidableEq, Repr

/-- The four-way join of the traceability query, before ordering; each
element carries the order's internal id (the second sort key) alongside the
selected columns. -/
def joinRowsRaw (db : DB) (bn : String) : List (Nat × TraceRow) :=
  db.orderLineItems.filterMap (fun li =>
    match db.orders.find? (fun o => decide (o.id = li.orderId)),
          db.batches.find? (fun b => decide (b.id = li.batchId)),
          db.products.find? (fun p => decide (p.id = li.productId)) with
    | some o, some b, some p =>
        if b.batchNumber = bn then
          some (o.id, ⟨o.shopifyOrderId, o.customerName, o.orderDate, p.name, li.quantity⟩)
        else none
    | _, _, _ => none)

/-- The comparator realised by `ORDER BY o.order_date DESC, o.id DESC`. -/
def traceGE (a b : Nat × TraceRow) : Bool :=
  if a.2.date = b.2.date then decide (b.1 ≤ a.1) else decide (b.2.date < a.2.date)

/-- The ordered, projected traceability rows for a batch number. -/
def traceRows (db : DB) (bn : String) : List TraceRow :=
  (orderBy traceGE (joinRowsRaw db bn)).map Prod.snd

/-- Route `GET /api/orders/batch/:batchNumber`: the ordered join; an empty result
is answered with a 404 error, a non-empty one with the rows. -/
def findOrdersByBatchNumber (db : DB) (bn : String) : Except TraceErr (List TraceRow) :=
  let rows := traceRows db bn
  if rows.isEmpty then .error .notFound else .ok rows

/-- Modelled from the spec's wording of the allocation walk: walk the ordered
candidates; for each, consume `min(remaining_to_fulfill, batch.remaining)`,
record a Consumption row, reduce the outstanding requirement, and stop early
once the requirement reaches zero.  Used to compare the code's `allocLoop`
against the spec. -/
def allocPicksSpec (oid pid : Nat) (q : Int) (cands : List Batch) : List LineItemRow :=
  match cands with
  | [] => []
  | c :: rest =>
      if q ≤ 0 then []
      else
        let pick := min q c.quantity
        ⟨oid, pid, c.id, pick⟩ :: allocPicksSpec oid pid (q - pick) rest

/-- Well-formedness of the batch relation as PostgreSQL maintains it: the
SERIAL primary key makes batch ids pairwise distinct and below the next
sequence value. -/
def BatchIdsWF (db : DB) : Prop :=
  (db.batches.map Batch.id).Nodup ∧ ∀ b ∈ db.batches, b.id < db.nextId

/-- A metafield resolver that always fails (shop uninstalled / API down). -/
def failingResolver : String → Except Unit Hints := fun _ => .error ()

/-- A resolver answering shelf life 30 days and default batch quantity 5. -/
def smallHintResolver : String → Except Unit Hints := fun _ => .ok ⟨some 30, some 5⟩

/-- A sample product row. -/
def sampleProduct : Product := ⟨1, "P1", some ("Prod"), some ("SKU")⟩

/-- A state with one product and one batch of 10 units. -/
def stockedDB : DB := ⟨[sampleProduct], [⟨2, 1, "BN", some 10, 10, 0⟩], [], [], 3⟩

/-- A state with one product and no batches at all. -/
def emptyStockDB : DB := ⟨[sampleProduct], [], [], [], 2⟩

/-- An order payload requesting 3 units of the sample product. -/
def orderPayload3 : OrderPayload := ⟨"O1", some ("Alice"), 50, [⟨"P1", some ("Prod"), some ("SKU"), 3⟩]⟩

/-- An order payload requesting 12 units of the sample product. -/
def orderPayload12 : OrderPayload := ⟨"O2", none, 50, [⟨"P1", some ("Prod"), some ("SKU"), 12⟩]⟩

/-- A state in which order 3 has already consumed 3 units of batch 2. -/
def consumedDB : DB :=
  ⟨[⟨1, "P1", none, none⟩], [⟨2, 1, "BN", some 10, 7, 0⟩], [⟨3, "O1", none, 5⟩], [⟨3, 1, 2, 3⟩], 4⟩

/-- Scenario A of the spec: B2 (later expiry, 10 units) stored before B1
(earlier expiry, 5 units), so the FEFO sort has to reorder them. -/
def scenADB : DB :=
  ⟨[sampleProduct], [⟨2, 1, "B2", some 20250201, 10, 1⟩, ⟨3, 1, "B1", some 20250101, 5, 2⟩], [], [], 4⟩

/-- Scenario A's order payload: 8 units of the sample product. -/
def scenAPayload : OrderPayload := ⟨"O4", none, 50, [⟨"P1", none, none, 8⟩]⟩

/-- The state produced by processing `orderPayload3` against `stockedDB`:
batch 2 is down to 7 units and order 3 consumed 3 of them. -/
def replayDB : DB :=
  ⟨[sampleProduct], [⟨2, 1, "BN", some 10, 7, 0⟩],
   [⟨3, "O1", some ("Alice"), 50⟩], [⟨3, 1, 2, 3⟩], 4⟩

def exceptDecEq {ε α : Type} [DecidableEq ε] [DecidableEq α] :
    (a b : Except ε α) → Decidable (a = b)
  | .error e1, .error e2 =>
      if h : e1 = e2 then .isTrue (by rw [h]) else .isFalse (fun hc => h (Except.error.inj hc))
  | .error _, .ok _ => .isFalse (fun hc => Except.noConfusion hc)
  | .ok _, .error _ => .isFalse (fun hc => Except.noConfusion hc)
  | .ok a1, .ok a2 =>
      if h : a1 = a2 then .isTrue (by rw [h]) else .isFalse (fun hc => h (Except.ok.inj hc))

instance {ε α : Type} [DecidableEq ε] [DecidableEq α] : DecidableEq (Except ε α) :=
  exceptDecEq

theorem insertOrdered_perm {α : Type} (le : α → α → Bool) (a : α) :
    ∀ l : List α, (insertOrdered le a l).Perm (a :: l) := by
  intro l
  induction l with
  | nil => simp [insertOrdered]
  | cons b rest ih =>
      by_cases h : le a b = true
      · simp [insertOrdered, h]
      · simp only [insertOrdered, if_neg h]
        exact (ih.cons b).trans (List.Perm.swap a b rest)

theorem orderBy_perm {α : Type} (le : α → α → Bool) :
    ∀ l : List α, (orderBy le l).Perm l := by
  intro l
  induction l with
  | nil => simp [orderBy]
  | cons a rest ih =>
      exact (insertOrdered_perm le a (orderBy le rest)).trans (ih.cons a)

theorem mem_orderBy {α : Type} (le : α → α → Bool) (l : List α) (a : α) :
    a ∈ orderBy le l ↔ a ∈ l :=
  (orderBy_perm le l).mem_iff

theorem pairwise_insertOrdered {α : Type} (le : α → α → Bool)
    (htot : ∀ a b, (le a b || le b a) = true)
    (htrans : ∀ a b c, le a b = true → le b c = true → le a c = true) (a : α) :
    ∀ l : List α, l.Pairwise (fun x y => le x y = true) →
      (insertOrdered le a l).Pairwise (fun x y => le x y = true) := by
  intro l
  induction l with
  | nil => intro _; simp [insertOrdered]
  | cons b rest ih =>
      intro hp
      obtain ⟨hb, hrest⟩ := List.pairwise_cons.mp hp
      by_cases h : le a b = true
      · simp only [insertOrdered, if_pos h]
        refine List.pairwise_cons.mpr ⟨?_, hp⟩
        intro y hy
        rcases List.mem_cons.mp hy with rfl | hy2
        · exact h
        · exact htrans a b y h (hb y hy2)
      · simp only [insertOrdered, if_neg h]
        refine List.pairwise_cons.mpr ⟨?_, ih hrest⟩
        intro y hy
        have hy3 := (insertOrdered_perm le a rest).mem_iff.mp hy
        rcases List.mem_cons.mp hy3 with rfl | hy4
        · have h5 := htot y b
          rcases Bool.or_eq_true_iff.mp h5 with h1 | h2
          · exact absurd h1 h
          · exact h2
        · exact hb y hy4

theorem pairwise_orderBy {α : Type} (le : α → α → Bool)
    (htot : ∀ a b, (le a b || le b a) = true)
    (htrans : ∀ a b c, le a b = true → le b c = true → le a c = true) :
    ∀ l : List α, (orderBy le l).Pairwise (fun x y => le x y = true) := by
  intro l
  induction l with
  | nil => simp [orderBy]
  | cons a rest ih => exact pairwise_insertOrdered le htot htrans a (orderBy le rest) ih

theorem batchLE_total (a b : Batch) : (batchLE a b || batchLE b a) = true := by
  obtain ⟨ia, pa, na, ea, qa, ca⟩ := a
  obtain ⟨ib, pb, nb, eb, qb, cb⟩ := b
  cases ea <;> cases eb <;> simp [batchLE] <;> (try split_ifs) <;> (try simp_all) <;> omega

theorem batchLE_trans (a b c : Batch) (h1 : batchLE a b = true) (h2 : batchLE b c = true) :
    batchLE a c = true := by
  obtain ⟨ia, pa, na, ea, qa, ca⟩ := a
  obtain ⟨ib, pb, nb, eb, qb, cb⟩ := b
  obtain ⟨ic, pc, nc, ec, qc, cc⟩ := c
  cases ea <;> cases eb <;> cases ec <;> simp_all [batchLE] <;>
    (try split_ifs at *) <;> omega

theorem batchLE_dated_before_undated (a b : Batch) (h : batchLE a b = true)
    (ha : a.expiryDate = none) : b.expiryDate = none := by
  obtain ⟨ia, pa, na, ea, qa, ca⟩ := a
  obtain ⟨ib, pb, nb, eb, qb, cb⟩ := b
  cases ea <;> cases eb <;> simp_all [batchLE]

theorem fulfillableBatches_mem (db : DB) (pid : Nat) (b : Batch) :
    b ∈ fulfillableBatches db pid ↔ b ∈ db.batches ∧ b.productId = pid ∧ 0 < b.quantity := by
  unfold fulfillableBatches
  rw [mem_orderBy, List.mem_filter]
  simp

theorem fulfillableBatches_sorted (db : DB) (pid : Nat) :
    (fulfillableBatches db pid).Pairwise (fun a b => batchLE a b = true) := by
  unfold fulfillableBatches
  exact pairwise_orderBy batchLE batchLE_total batchLE_trans _

theorem fulfillableBatches_ids_nodup (db : DB) (pid : Nat)
    (h : (db.batches.map Batch.id).Nodup) :
    ((fulfillableBatches db pid).map Batch.id).Nodup := by
  unfold fulfillableBatches
  have hperm := orderBy_perm batchLE
      (db.batches.filter (fun b => decide (b.productId = pid) && decide (0 < b.quantity)))
  have hfil : ((db.batches.filter
      (fun b => decide (b.productId = pid) && decide (0 < b.quantity))).map Batch.id).Nodup :=
    ((List.filter_sublist _).map Batch.id).nodup h
  exact ((hperm.map Batch.id).symm.nodup hfil)

theorem fulfillableBatches_congr (db1 db2 : DB) (pid : Nat)
    (h : db1.batches = db2.batches) :
    fulfillableBatches db1 pid = fulfillableBatches db2 pid := by
  unfold fulfillableBatches
  rw [h]

@[simp] theorem decrementBatch_orders (db : DB) (bid : Nat) (amt : Int) :
    (decrementBatch db bid amt).orders = db.orders := rfl

@[simp] theorem decrementBatch_products (db : DB) (bid : Nat) (amt : Int) :
    (decrementBatch db bid amt).products = db.products := rfl

@[simp] theorem decrementBatch_nextId (db : DB) (bid : Nat) (amt : Int) :
    (decrementBatch db bid amt).nextId = db.nextId := rfl

@[simp] theorem decrementBatch_lineItems (db : DB) (bid : Nat) (amt : Int) :
    (decrementBatch db bid amt).orderLineItems = db.orderLineItems := rfl

theorem decrementBatch_ids (db : DB) (bid : Nat) (amt : Int) :
    (decrementBatch db bid amt).batches.map Batch.id = db.batches.map Batch.id := by
  unfold decrementBatch
  rw [List.map_map]
  exact List.map_congr_left (fun b _ => by by_cases h : b.id = bid <;> simp [h])

@[simp] theorem insertLineItem_batches (db : DB) (oid pid bid : Nat) (q : Int) :
    (insertLineItem db oid pid bid q).batches = db.batches := rfl

@[simp] theorem insertLineItem_orders (db : DB) (oid pid bid : Nat) (q : Int) :
    (insertLineItem db oid pid bid q).orders = db.orders := rfl

@[simp] theorem insertLineItem_products (db : DB) (oid pid bid : Nat) (q : Int) :
    (insertLineItem db oid pid bid q).products = db.products := rfl

@[simp] theorem insertLineItem_nextId (db : DB) (oid pid bid : Nat) (q : Int) :
    (insertLineItem db oid pid bid q).nextId = db.nextId := rfl

@[simp] theorem ensureProduct_batches (db : DB) (it : LineItem) :
    (ensureProduct db it).1.batches = db.batches := by
  unfold ensureProduct
  cases db.products.find? (fun p => decide (p.shopifyProductId = it.shopifyProductId)) <;> rfl

@[simp] theorem ensureProduct_orders (db : DB) (it : LineItem) :
    (ensureProduct db it).1.orders = db.orders := by
  unfold ensureProduct
  cases db.products.find? (fun p => decide (p.shopifyProductId = it.shopifyProductId)) <;> rfl

@[simp] theorem ensureProduct_lineItems (db : DB) (it : LineItem) :
    (ensureProduct db it).1.orderLineItems = db.orderLineItems := by
  unfold ensureProduct
  cases db.products.find? (fun p => decide (p.shopifyProductId = it.shopifyProductId)) <;> rfl

theorem ensureProduct_nextId_le (db : DB) (it : LineItem) :
    db.nextId ≤ (ensureProduct db it).1.nextId := by
  unfold ensureProduct
  cases db.products.find? (fun p => decide (p.shopifyProductId = it.shopifyProductId)) <;> simp

@[simp] theorem insertOrderOnConflict_batches (db : DB) (p : OrderPayload) :
    (insertOrderOnConflict db p).1.batches = db.batches := by
  unfold insertOrderOnConflict
  cases db.orders.find? (fun o => decide (o.shopifyOrderId = p.shopifyOrderId)) <;> rfl

@[simp] theorem insertOrderOnConflict_products (db : DB) (p : OrderPayload) :
    (insertOrderOnConflict db p).1.products = db.products := by
  unfold insertOrderOnConflict
  cases db.orders.find? (fun o => decide (o.shopifyOrderId = p.shopifyOrderId)) <;> rfl

theorem insertOrderOnConflict_nextId_le (db : DB) (p : OrderPayload) :
    db.nextId ≤ (insertOrderOnConflict db p).1.nextId := by
  unfold insertOrderOnConflict
  cases db.orders.find? (fun o => decide (o.shopifyOrderId = p.shopifyOrderId)) <;> simp

theorem allocLoop_lineItems (oid pid : Nat) :
    ∀ (cands : List Batch) (q : Int) (db : DB),
      ((allocLoop oid pid q cands db).1).orderLineItems
        = db.orderLineItems ++ allocPicksSpec oid pid q cands := by
  intro cands
  induction cands with
  | nil => intro q db; simp [allocLoop, allocPicksSpec]
  | cons c rest ih =>
      intro q db
      by_cases hq : q ≤ 0
      · simp [allocLoop, allocPicksSpec, hq]
      · simp only [allocLoop, allocPicksSpec, if_neg hq]
        rw [ih]
        simp [insertLineItem]

theorem allocLoop_snd (oid pid : Nat) :
    ∀ (cands : List Batch) (q : Int) (db : DB),
      (allocLoop oid pid q cands db).2
        = q - ((allocPicksSpec oid pid q cands).map LineItemRow.quantity).sum := by
  intro cands
  induction cands with
  | nil => intro q db; simp [allocLoop, allocPicksSpec]
  | cons c rest ih =>
      intro q db
      by_cases hq : q ≤ 0
      · simp [allocLoop, allocPicksSpec, hq]
      · simp only [allocLoop, allocPicksSpec, if_neg hq]
        rw [ih]
        simp only [List.map_cons, List.sum_cons]
        ring

theorem allocLoop_orders (oid pid : Nat) :
    ∀ (cands : List Batch) (q : Int) (db : DB),
      (allocLoop oid pid q cands db).1.orders = db.orders := by
  intro cands
  induction cands with
  | nil => intro q db; simp [allocLoop]
  | cons c rest ih =>
      intro q db
      by_cases hq : q ≤ 0
      · simp [allocLoop, hq]
      · simp only [allocLoop, if_neg hq]
        rw [ih]
        rfl

theorem allocLoop_products (oid pid : Nat) :
    ∀ (cands : List Batch) (q : Int) (db : DB),
      (allocLoop oid pid q cands db).1.products = db.products := by
  intro cands
  induction cands with
  | nil => intro q db; simp [allocLoop]
  | cons c rest ih =>
      intro q db
      by_cases hq : q ≤ 0
      · simp [allocLoop, hq]
      · simp only [allocLoop, if_neg hq]
        rw [ih]
        rfl

theorem allocLoop_nextId (oid pid : Nat) :
    ∀ (cands : List Batch) (q : Int) (db : DB),
      (allocLoop oid pid q cands db).1.nextId = db.nextId := by
  intro cands
  induction cands with
  | nil => intro q db; simp [allocLoop]
  | cons c rest ih =>
      intro q db
      by_cases hq : q ≤ 0
      · simp [allocLoop, hq]
      · simp only [allocLoop, if_neg hq]
        rw [ih]
        rfl

theorem allocLoop_batchIds (oid pid : Nat) :
    ∀ (cands : List Batch) (q : Int) (db : DB),
      (allocLoop oid pid q cands db).1.batches.map Batch.id = db.batches.map Batch.id := by
  intro cands
  induction cands with
  | nil => intro q db; simp [allocLoop]
  | cons c rest ih =>
      intro q db
      by_cases hq : q ≤ 0
      · simp [allocLoop, hq]
      · simp only [allocLoop, if_neg hq]
        rw [ih]
        simp only [insertLineItem_batches]
        exact decrementBatch_ids db c.id (min q c.quantity)

theorem allocLoop_batches_length (oid pid : Nat) (cands : List Batch) (q : Int) (db : DB) :
    (allocLoop oid pid q cands db).1.batches.length = db.batches.length := by
  have h := allocLoop_batchIds oid pid cands q db
  have h1 := congrArg List.length h
  simpa using h1

theorem allocPicksSpec_sum (oid pid : Nat) :
    ∀ (cands : List Batch) (q : Int), 0 ≤ q → (∀ c ∈ cands, 0 ≤ c.quantity) →
      ((allocPicksSpec oid pid q cands).map LineItemRow.quantity).sum
        = min q ((cands.map Batch.quantity).sum) := by
  intro cands
  induction cands with
  | nil => intro q hq _; simp [allocPicksSpec]; omega
  | cons c rest ih =>
      intro q hq hc
      have hcq : 0 ≤ c.quantity := hc c (by simp)
      have hrest : 0 ≤ ((rest.map Batch.quantity).sum) := by
        apply List.sum_nonneg
        intro x hx
        obtain ⟨b, hb, rfl⟩ := List.mem_map.mp hx
        exact hc b (by simp [hb])
      by_cases hq0 : q ≤ 0
      · have hqz : q = 0 := le_antisymm hq0 hq
        subst hqz
        simp [allocPicksSpec]
        omega
      · simp only [allocPicksSpec, if_neg hq0, List.map_cons, List.sum_cons]
        rw [ih (q - min q c.quantity) (by omega) (fun b hb => hc b (by simp [hb]))]
        omega

theorem allocPicksSpec_length (oid pid : Nat) :
    ∀ (cands : List Batch) (q : Int),
      (allocPicksSpec oid pid q cands).length ≤ cands.length := by
  intro cands
  induction cands with
  | nil => intro q; simp [allocPicksSpec]
  | cons c rest ih =>
      intro q
      by_cases hq : q ≤ 0
      · simp [allocPicksSpec, hq]
      · simp only [allocPicksSpec, if_neg hq, List.length_cons]
        exact Nat.succ_le_succ (ih _)

theorem allocPicksSpec_ne_nil (oid pid : Nat) (cands : List Batch) (q : Int)
    (h : allocPicksSpec oid pid q cands ≠ []) :
    0 < q ∧ cands ≠ [] := by
  cases cands with
  | nil => simp [allocPicksSpec] at h
  | cons c rest =>
      by_cases hq : q ≤ 0
      · simp [allocPicksSpec, hq] at h
      · exact ⟨by omega, by simp⟩

theorem allocPicksSpec_earlier_full (oid pid : Nat) :
    ∀ (cands : List Batch) (q : Int) (i : Nat),
      i + 1 < (allocPicksSpec oid pid q cands).length →
      (allocPicksSpec oid pid q cands)[i]?.map LineItemRow.quantity
          = cands[i]?.map Batch.quantity
      ∧ (allocPicksSpec oid pid q cands)[i]?.map LineItemRow.batchId
          = cands[i]?.map Batch.id := by
  intro cands
  induction cands with
  | nil => intro q i h; simp [allocPicksSpec] at h
  | cons c rest ih =>
      intro q i h
      by_cases hq : q ≤ 0
      · simp [allocPicksSpec, hq] at h
      · simp only [allocPicksSpec, if_neg hq] at h ⊢
        cases i with
        | zero =>
            have hne : allocPicksSpec oid pid (q - min q c.quantity) rest ≠ [] := by
              intro hcon
              rw [hcon] at h
              simp at h
            have hpos := (allocPicksSpec_ne_nil oid pid rest (q - min q c.quantity) hne).1
            have hfull : min q c.quantity = c.quantity := by omega
            simp [hfull]
        | succ i =>
            simp only [List.length_cons, Nat.succ_lt_succ_iff] at h
            have hih := ih (q - min q c.quantity) i h
            simpa using hih

theorem exceptBind_ok {ε α β : Type} (a : α) (f : α → Except ε β) :
    (Except.ok a >>= f) = f a := rfl

theorem exceptBind_error {ε α β : Type} (e : ε) (f : α → Except ε β) :
    ((Except.error e : Except ε α) >>= f) = .error e := rfl

theorem decrementBatch_mem_ne (db : DB) (bid : Nat) (amt : Int) (b : Batch)
    (hb : b ∈ db.batches) (hne : b.id ≠ bid) :
    b ∈ (decrementBatch db bid amt).batches := by
  simp only [decrementBatch]
  exact List.mem_map.mpr ⟨b, hb, by simp [hne]⟩

theorem allocLoop_nonneg (oid pid : Nat) :
    ∀ (cands : List Batch) (q : Int) (db : DB),
      (db.batches.map Batch.id).Nodup →
      (∀ c ∈ cands, c ∈ db.batches) →
      ((cands.map Batch.id).Nodup) →
      (∀ b ∈ db.batches, 0 ≤ b.quantity) →
      ∀ b ∈ (allocLoop oid pid q cands db).1.batches, 0 ≤ b.quantity := by
  intro cands
  induction cands with
  | nil => intro q db _ _ _ h0; simpa [allocLoop] using h0
  | cons c rest ih =>
      intro q db hdb hc hnd h0
      by_cases hq : q ≤ 0
      · simpa [allocLoop, hq] using h0
      · simp only [allocLoop, if_neg hq]
        apply ih (q - min q c.quantity)
          (insertLineItem (decrementBatch db c.id (min q c.quantity)) oid pid c.id (min q c.quantity))
        · simp only [insertLineItem_batches]
          rw [decrementBatch_ids]
          exact hdb
        · intro c' hc'
          have hmem : c' ∈ db.batches := hc c' (by simp [hc'])
          have hne : c'.id ≠ c.id := by
            intro he
            have hnd2 : (c.id :: rest.map Batch.id).Nodup := by simpa using hnd
            have hni := (List.nodup_cons.mp hnd2).1
            exact hni (he ▸ List.mem_map_of_mem Batch.id hc')
          simp only [insertLineItem_batches]
          exact decrementBatch_mem_ne db c.id _ c' hmem hne
        · have hnd2 : (c.id :: rest.map Batch.id).Nodup := by simpa using hnd
          exact (List.nodup_cons.mp hnd2).2
        · intro b hb
          simp only [insertLineItem_batches, decrementBatch] at hb
          obtain ⟨b0, hb0, rfl⟩ := List.mem_map.mp hb
          by_cases hid : b0.id = c.id
          · have hbc : b0 = c :=
              List.inj_on_of_nodup_map hdb hb0 (hc c (by simp)) (by simp [hid])
            rw [if_pos hid]
            show 0 ≤ b0.quantity - min q c.quantity
            rw [hbc]
            omega
          · simp only [hid, if_neg, if_false]
            exact h0 b0 hb0

theorem ensureProduct_WF (db : DB) (it : LineItem) (h : BatchIdsWF db) :
    BatchIdsWF (ensureProduct db it).1 := by
  obtain ⟨h1, h2⟩ := h
  constructor
  · rw [ensureProduct_batches]; exact h1
  · intro b hb
    rw [ensureProduct_batches] at hb
    exact lt_of_lt_of_le (h2 b hb) (ensureProduct_nextId_le db it)

theorem insertOrderOnConflict_WF (db : DB) (p : OrderPayload) (h : BatchIdsWF db) :
    BatchIdsWF (insertOrderOnConflict db p).1 := by
  obtain ⟨h1, h2⟩ := h
  constructor
  · rw [insertOrderOnConflict_batches]; exact h1
  · intro b hb
    rw [insertOrderOnConflict_batches] at hb
    exact lt_of_lt_of_le (h2 b hb) (insertOrderOnConflict_nextId_le db p)

theorem allocLoop_WF (oid pid : Nat) (cands : List Batch) (q : Int) (db : DB)
    (h : BatchIdsWF db) : BatchIdsWF (allocLoop oid pid q cands db).1 := by
  obtain ⟨h1, h2⟩ := h
  constructor
  · rw [allocLoop_batchIds]; exact h1
  · intro b hb
    have hmem : b.id ∈ (allocLoop oid pid q cands db).1.batches.map Batch.id :=
      List.mem_map_of_mem Batch.id hb
    rw [allocLoop_batchIds] at hmem
    obtain ⟨b0, hb0, he⟩ := List.mem_map.mp hmem
    rw [allocLoop_nextId, ← he]
    exact h2 b0 hb0

@[simp] theorem synthesizeAndConsume_orders (hints : Hints) (now oid pid : Nat)
    (sku : Option String) (need : Int) (db : DB) :
    (synthesizeAndConsume hints now oid pid sku need db).orders = db.orders := rfl

@[simp] theorem synthesizeAndConsume_products (hints : Hints) (now oid pid : Nat)
    (sku : Option String) (need : Int) (db : DB) :
    (synthesizeAndConsume hints now oid pid sku need db).products = db.products := rfl

@[simp] theorem synthesizeAndConsume_nextId (hints : Hints) (now oid pid : Nat)
    (sku : Option String) (need : Int) (db : DB) :
    (synthesizeAndConsume hints now oid pid sku need db).nextId = db.nextId + 1 := rfl

theorem synthesizeAndConsume_batches (hints : Hints) (now oid pid : Nat)
    (sku : Option String) (need : Int) (db : DB) :
    (synthesizeAndConsume hints now oid pid sku need db).batches
      = db.batches.map (fun b => if b.id = db.nextId then
            { b with quantity := b.quantity - min need (synthQty hints) } else b)
        ++ [⟨db.nextId, pid, mkBatchNumber sku now,
             hints.shelfLifeDays.map (fun d => now + d),
             synthQty hints - min need (synthQty hints), now⟩] := by
  simp only [synthesizeAndConsume, insertBatch, decrementBatch, insertLineItem]
  simp [List.map_append]

theorem synthesizeAndConsume_lineItems (hints : Hints) (now oid pid : Nat)
    (sku : Option String) (need : Int) (db : DB) :
    (synthesizeAndConsume hints now oid pid sku need db).orderLineItems
      = db.orderLineItems ++ [⟨oid, pid, db.nextId, min need (synthQty hints)⟩] := rfl

theorem synthesizeAndConsume_WF (hints : Hints) (now oid pid : Nat)
    (sku : Option String) (need : Int) (db : DB) (h : BatchIdsWF db) :
    BatchIdsWF (synthesizeAndConsume hints now oid pid sku need db) := by
  obtain ⟨h1, h2⟩ := h
  constructor
  · rw [synthesizeAndConsume_batches]
    rw [List.map_append, List.map_map]
    have hids : db.batches.map (Batch.id ∘ (fun b => if b.id = db.nextId then
        { b with quantity := b.quantity - min need (synthQty hints) } else b))
        = db.batches.map Batch.id :=
      List.map_congr_left (fun b _ => by by_cases hh : b.id = db.nextId <;> simp [hh])
    rw [hids]
    rw [List.nodup_append]
    refine ⟨h1, by simp, ?_⟩
    intro x hx hx2
    simp only [List.map_cons, List.map_nil, List.mem_cons, List.not_mem_nil, or_false] at hx2
    obtain ⟨b0, hb0, he⟩ := List.mem_map.mp hx
    subst hx2
    exact absurd (he ▸ h2 b0 hb0) (by omega)
  · intro b hb
    rw [synthesizeAndConsume_batches] at hb
    rw [synthesizeAndConsume_nextId]
    rcases List.mem_append.mp hb with hmem | hmem
    · obtain ⟨b0, hb0, rfl⟩ := List.mem_map.mp hmem
      have := h2 b0 hb0
      by_cases hh : b0.id = db.nextId <;> simp [hh] <;> (try omega)
    · simp only [List.mem_singleton] at hmem
      subst hmem
      simp

theorem synthesizeAndConsume_nonneg (hints : Hints) (now oid pid : Nat)
    (sku : Option String) (need : Int) (db : DB) (hWF : BatchIdsWF db)
    (h0 : ∀ b ∈ db.batches, 0 ≤ b.quantity) :
    ∀ b ∈ (synthesizeAndConsume hints now oid pid sku need db).batches, 0 ≤ b.quantity := by
  intro b hb
  rw [synthesizeAndConsume_batches] at hb
  rcases List.mem_append.mp hb with hmem | hmem
  · obtain ⟨b0, hb0, rfl⟩ := List.mem_map.mp hmem
    have hlt : b0.id ≠ db.nextId := Nat.ne_of_lt (hWF.2 b0 hb0)
    simp only [hlt, if_neg, if_false]
    exact h0 b0 hb0
  · simp only [List.mem_singleton] at hmem
    subst hmem
    simp only
    omega

theorem processItem_ok_shape (resolver : String → Except Unit Hints) (now oid : Nat)
    (db : DB) (it : LineItem) (db' : DB)
    (h : processItem resolver now oid db it = .ok db') :
    (∃ hints, resolver it.shopifyProductId = .ok hints ∧
        0 < (allocLoop oid (ensureProduct db it).2.1 it.quantity
              (fulfillableBatches (ensureProduct db it).1 (ensureProduct db it).2.1)
              (ensureProduct db it).1).2 ∧
        db' = synthesizeAndConsume hints now oid (ensureProduct db it).2.1 (ensureProduct db it).2.2
              (allocLoop oid (ensureProduct db it).2.1 it.quantity
                (fulfillableBatches (ensureProduct db it).1 (ensureProduct db it).2.1)
                (ensureProduct db it).1).2
              (allocLoop oid (ensureProduct db it).2.1 it.quantity
                (fulfillableBatches (ensureProduct db it).1 (ensureProduct db it).2.1)
                (ensureProduct db it).1).1)
    ∨ (¬ 0 < (allocLoop oid (ensureProduct db it).2.1 it.quantity
              (fulfillableBatches (ensureProduct db it).1 (ensureProduct db it).2.1)
              (ensureProduct db it).1).2 ∧
        db' = (allocLoop oid (ensureProduct db it).2.1 it.quantity
              (fulfillableBatches (ensureProduct db it).1 (ensureProduct db it).2.1)
              (ensureProduct db it).1).1) := by
  simp only [processItem] at h
  by_cases hpos : 0 < (allocLoop oid (ensureProduct db it).2.1 it.quantity
      (fulfillableBatches (ensureProduct db it).1 (ensureProduct db it).2.1)
      (ensureProduct db it).1).2
  · rw [if_pos hpos] at h
    cases hres : resolver it.shopifyProductId with
    | error e => rw [hres] at h; cases h
    | ok hints =>
        rw [hres] at h
        cases h
        exact Or.inl ⟨hints, rfl, hpos, rfl⟩
  · rw [if_neg hpos] at h
    cases h
    exact Or.inr ⟨hpos, rfl⟩

theorem processItem_preserves (resolver : String → Except Unit Hints) (now oid : Nat)
    (db : DB) (it : LineItem) (db' : DB)
    (hWF : BatchIdsWF db) (h0 : ∀ b ∈ db.batches, 0 ≤ b.quantity)
    (h : processItem resolver now oid db it = .ok db') :
    BatchIdsWF db' ∧ (∀ b ∈ db'.batches, 0 ≤ b.quantity) := by
  have hWF1 : BatchIdsWF (ensureProduct db it).1 := ensureProduct_WF db it hWF
  have h01 : ∀ b ∈ (ensureProduct db it).1.batches, 0 ≤ b.quantity := by
    rw [ensureProduct_batches]; exact h0
  have hWF2 : BatchIdsWF (allocLoop oid (ensureProduct db it).2.1 it.quantity
      (fulfillableBatches (ensureProduct db it).1 (ensureProduct db it).2.1)
      (ensureProduct db it).1).1 :=
    allocLoop_WF _ _ _ _ _ hWF1
  have h02 : ∀ b ∈ (allocLoop oid (ensureProduct db it).2.1 it.quantity
      (fulfillableBatches (ensureProduct db it).1 (ensureProduct db it).2.1)
      (ensureProduct db it).1).1.batches, 0 ≤ b.quantity := by
    apply allocLoop_nonneg
    · exact hWF1.1
    · intro c hcmem
      exact ((fulfillableBatches_mem (ensureProduct db it).1 (ensureProduct db it).2.1 c).mp hcmem).1
    · exact fulfillableBatches_ids_nodup (ensureProduct db it).1 (ensureProduct db it).2.1 hWF1.1
    · exact h01
  rcases processItem_ok_shape resolver now oid db it db' h with
    ⟨hints, hres, hpos, hdb'⟩ | ⟨hpos, hdb'⟩
  · subst hdb'
    exact ⟨synthesizeAndConsume_WF _ _ _ _ _ _ _ hWF2,
           synthesizeAndConsume_nonneg _ _ _ _ _ _ _ hWF2 h02⟩
  · subst hdb'
    exact ⟨hWF2, h02⟩

theorem processItem_ok_orders (resolver : String → Except Unit Hints) (now oid : Nat)
    (db : DB) (it : LineItem) (db' : DB)
    (h : processItem resolver now oid db it = .ok db') : db'.orders = db.orders := by
  rcases processItem_ok_shape resolver now oid db it db' h with
    ⟨hints, _, _, hdb'⟩ | ⟨_, hdb'⟩ <;> subst hdb' <;>
    simp [synthesizeAndConsume_orders, allocLoop_orders, ensureProduct_orders]

theorem foldlM_processItem_preserves (resolver : String → Except Unit Hints) (now oid : Nat) :
    ∀ (items : List LineItem) (db db' : DB),
      BatchIdsWF db → (∀ b ∈ db.batches, 0 ≤ b.quantity) →
      items.foldlM (fun s x => processItem resolver now oid s x) db = .ok db' →
      BatchIdsWF db' ∧ (∀ b ∈ db'.batches, 0 ≤ b.quantity) := by
  intro items
  induction items with
  | nil =>
      intro db db' h1 h2 h
      rw [List.foldlM_nil] at h
      cases h
      exact ⟨h1, h2⟩
  | cons a l ih =>
      intro db db' h1 h2 h
      rw [List.foldlM_cons] at h
      cases hstep : processItem resolver now oid db a with
      | error e =>
          rw [hstep, exceptBind_error] at h
          exact Except.noConfusion h
      | ok dbm =>
          rw [hstep, exceptBind_ok] at h
          obtain ⟨hw, hn⟩ := processItem_preserves resolver now oid db a dbm h1 h2 hstep
          exact ih dbm db' hw hn h

theorem foldlM_processItem_orders (resolver : String → Except Unit Hints) (now oid : Nat) :
    ∀ (items : List LineItem) (db db' : DB),
      items.foldlM (fun s x => processItem resolver now oid s x) db = .ok db' →
      db'.orders = db.orders := by
  intro items
  induction items with
  | nil =>
      intro db db' h
      rw [List.foldlM_nil] at h
      cases h
      rfl
  | cons a l ih =>
      intro db db' h
      rw [List.foldlM_cons] at h
      cases hstep : processItem resolver now oid db a with
      | error e =>
          rw [hstep, exceptBind_error] at h
          exact Except.noConfusion h
      | ok dbm =>
          rw [hstep, exceptBind_ok] at h
          rw [ih dbm db' h]
          exact processItem_ok_orders resolver now oid db a dbm hstep

theorem insertOrderOnConflict_existing (db : DB) (p : OrderPayload) (o : Order)
    (h : db.orders.find? (fun x => decide (x.shopifyOrderId = p.shopifyOrderId)) = some o) :
    insertOrderOnConflict db p = (db, o.id) := by
  unfold insertOrderOnConflict
  rw [h]

theorem insertOrderOnConflict_mem (db : DB) (p : OrderPayload) :
    ∃ o ∈ (insertOrderOnConflict db p).1.orders,
      o.id = (insertOrderOnConflict db p).2 ∧ o.shopifyOrderId = p.shopifyOrderId := by
  unfold insertOrderOnConflict
  cases hf : db.orders.find? (fun x => decide (x.shopifyOrderId = p.shopifyOrderId)) with
  | some o =>
      refine ⟨o, List.mem_of_find?_eq_some hf, rfl, ?_⟩
      have := List.find?_some hf
      simpa using this
  | none =>
      exact ⟨⟨db.nextId, p.shopifyOrderId, p.customerName, p.orderDate⟩, by simp, rfl, rfl⟩

/-- C3: for every product, the candidate batches considered for allocation
are exactly the rows with remaining quantity > 0 for that product, ordered by
expiry date ascending with NULL expiries last and ties broken by creation
time ascending; in the ordered list a dated batch never follows an undated
one, and the allocation walk fully consumes each earlier candidate before a
later one is drawn from — so a batch with no expiry date is never drawn from
while any dated batch with remaining stock exists. -/
theorem fefo_candidate_selection (db : DB) (pid : Nat) :
    (∀ b, b ∈ fulfillableBatches db pid ↔
        b ∈ db.batches ∧ b.productId = pid ∧ 0 < b.quantity)
  ∧ (fulfillableBatches db pid).Pairwise (fun a b => batchLE a b = true)
  ∧ (fulfillableBatches db pid).Pairwise
      (fun a b => a.expiryDate = none → b.expiryDate = none)
  ∧ (∀ (oid : Nat) (q : Int) (i j : Nat), i < j →
        j < (allocPicksSpec oid pid q (fulfillableBatches db pid)).length →
        (allocPicksSpec oid pid q (fulfillableBatches db pid))[i]?.map LineItemRow.quantity
            = (fulfillableBatches db pid)[i]?.map Batch.quantity
        ∧ (allocPicksSpec oid pid q (fulfillableBatches db pid))[i]?.map LineItemRow.batchId
            = (fulfillableBatches db pid)[i]?.map Batch.id) := by
  refine ⟨fulfillableBatches_mem db pid, fulfillableBatches_sorted db pid, ?_, ?_⟩
  · exact (fulfillableBatches_sorted db pid).imp
      (fun h => batchLE_dated_before_undated _ _ h)
  · intro oid q i j hij hj
    exact allocPicksSpec_earlier_full oid pid (fulfillableBatches db pid) q i
      (lt_of_le_of_lt (Nat.succ_le_of_lt hij) hj)

/-- C3 witness: in Scenario A's state the first allocation pick drains the
first (earliest-expiry) candidate completely. -/
theorem fefo_candidate_selection_witness :
    (allocPicksSpec 4 1 8 (fulfillableBatches scenADB 1))[0]?.map LineItemRow.quantity
      = (fulfillableBatches scenADB 1)[0]?.map Batch.quantity :=
  ((fefo_candidate_selection scenADB 1).2.2.2 4 8 0 1 (by decide) (by decide)).1

/-- C4: the allocation walk records exactly the min-walk consumption rows
(`allocPicksSpec`, written from the spec's step 3), the outstanding
requirement decreases by exactly their total, the total consumed equals
`min(q, total stock)`, and Scenario A (B1 qty 5 / B2 qty 10, request 8)
yields Consumption(B1,5)+Consumption(B2,3), B1.remaining = 0,
B2.remaining = 7. -/
theorem allocation_walk_spec :
    (∀ (oid pid : Nat) (q : Int) (cands : List Batch) (db : DB),
        ((allocLoop oid pid q cands db).1).orderLineItems
          = db.orderLineItems ++ allocPicksSpec oid pid q cands)
  ∧ (∀ (oid pid : Nat) (q : Int) (cands : List Batch) (db : DB),
        (allocLoop oid pid q cands db).2
          = q - ((allocPicksSpec oid pid q cands).map LineItemRow.quantity).sum)
  ∧ (∀ (oid pid : Nat) (q : Int) (cands : List Batch),
        0 ≤ q → (∀ c ∈ cands, 0 ≤ c.quantity) →
        ((allocPicksSpec oid pid q cands).map LineItemRow.quantity).sum
          = min q ((cands.map Batch.quantity).sum))
  ∧ (processOrder failingResolver 0 scenADB scenAPayload).map
      (fun x => (x.1.orderLineItems, x.1.batches.map (fun b => (b.id, b.quantity))))
      = .ok ([⟨4, 1, 3, 5⟩, ⟨4, 1, 2, 3⟩], [(2, 7), (3, 0)]) := by
  refine ⟨?_, ?_, ?_, by decide⟩
  · intro oid pid q cands db
    exact allocLoop_lineItems oid pid cands q db
  · intro oid pid q cands db
    exact allocLoop_snd oid pid cands q db
  · intro oid pid q cands hq hc
    exact allocPicksSpec_sum oid pid cands q hq hc

/-- C4 witness: the sum rule instantiated in Scenario A — 8 requested
against 15 units of stock consumes exactly 8. -/
theorem allocation_walk_spec_witness :
    ((allocPicksSpec 4 1 8 (fulfillableBatches scenADB 1)).map LineItemRow.quantity).sum
      = min 8 (((fulfillableBatches scenADB 1).map Batch.quantity).sum) :=
  allocation_walk_spec.2.2.1 4 1 8 (fulfillableBatches scenADB 1) (by decide) (by decide)

/-- C9: deleting a batch that has a consumption against it fails with the
`BatchHasConsumptions` conflict (HTTP 409) and nothing is deleted; with no
consumption, an existing batch is removed (and only the batch relation
changes), and a missing batch answers not-found. -/
theorem delete_batch_spec (db : DB) (bid : Nat) :
    ((∃ li ∈ db.orderLineItems, li.batchId = bid) →
        deleteBatch db bid = .error .hasOrders)
  ∧ ((∀ li ∈ db.orderLineItems, li.batchId ≠ bid) → (∃ b ∈ db.batches, b.id = bid) →
        deleteBatch db bid
          = .ok { db with batches := db.batches.filter (fun b => ! decide (b.id = bid)) })
  ∧ ((∀ li ∈ db.orderLineItems, li.batchId ≠ bid) → (∀ b ∈ db.batches, b.id ≠ bid) →
        deleteBatch db bid = .error .notFound) := by
  refine ⟨?_, ?_, ?_⟩
  · rintro ⟨li, hli, he⟩
    have hc : db.orderLineItems.any (fun x => decide (x.batchId = bid)) = true :=
      List.any_eq_true.mpr ⟨li, hli, by simp [he]⟩
    unfold deleteBatch
    rw [if_pos hc]
  · intro hno hex
    have hc : db.orderLineItems.any (fun x => decide (x.batchId = bid)) = false := by
      rw [List.any_eq_false]
      intro li hli
      simpa using hno li hli
    obtain ⟨b, hbm, hbe⟩ := hex
    have hb : db.batches.any (fun x => decide (x.id = bid)) = true :=
      List.any_eq_true.mpr ⟨b, hbm, by simp [hbe]⟩
    unfold deleteBatch
    rw [if_neg (by simp [hc]), if_pos hb]
  · intro hno hnb
    have hc : db.orderLineItems.any (fun x => decide (x.batchId = bid)) = false := by
      rw [List.any_eq_false]
      intro li hli
      simpa using hno li hli
    have hb : db.batches.any (fun x => decide (x.id = bid)) = false := by
      rw [List.any_eq_false]
      intro b hbm
      simpa using hnb b hbm
    unfold deleteBatch
    rw [if_neg (by simp [hc]), if_neg (by simp [hb])]

/-- C9 witness: batch 2 of `consumedDB` has a consumption, so deleting it is
refused. -/
theorem delete_batch_spec_witness : deleteBatch consumedDB 2 = .error .hasOrders :=
  (delete_batch_spec consumedDB 2).1 ⟨⟨3, 1, 2, 3⟩, by decide, rfl⟩

/-- C10: a batch update whose body omits the quantity (or sends a
non-numeric one, which `Number.parseInt` turns into NaN and `|| 0` into 0)
sets the batch's remaining quantity to 0, and an omitted expiry date sets the
expiry to NULL — the request succeeds instead of being rejected or leaving
the fields unchanged. -/
theorem update_batch_defaults (db : DB) (bid : Nat) (q : Option QtyIn)
    (hex : db.batches.any (fun b => decide (b.id = bid)) = true)
    (hq : q = none ∨ q = some .nonNumeric) :
    updateBatch db bid none q
      = .ok { db with batches := db.batches.map (fun b =>
          if b.id = bid then { b with expiryDate := none, quantity := 0 } else b) } := by
  unfold updateBatch
  rw [if_pos hex]
  rcases hq with rfl | rfl <;> rfl

/-- C10 witness: updating batch 2 of `consumedDB` with an empty body zeroes
its quantity and clears its expiry. -/
theorem update_batch_defaults_witness :
    updateBatch consumedDB 2 none none
      = .ok { consumedDB with batches := consumedDB.batches.map (fun b =>
          if b.id = 2 then { b with expiryDate := none, quantity := 0 } else b) } :=
  update_batch_defaults consumedDB 2 none (by decide) (Or.inl rfl)

theorem processOrder_ok_shape (resolver : String → Except Unit Hints) (now : Nat)
    (db : DB) (p : OrderPayload) (db2 : DB) (oid : Nat)
    (h : processOrder resolver now db p = .ok (db2, oid)) :
    ¬ (p.shopifyOrderId = "" ∨ p.lineItems = [])
    ∧ oid = (insertOrderOnConflict db p).2
    ∧ p.lineItems.foldlM
        (fun s it => processItem resolver now (insertOrderOnConflict db p).2 s it)
        (insertOrderOnConflict db p).1 = .ok db2 := by
  unfold processOrder at h
  by_cases hguard : p.shopifyOrderId = "" ∨ p.lineItems = []
  · rw [if_pos hguard] at h; cases h
  · rw [if_neg hguard] at h
    have hm : (match p.lineItems.foldlM
          (fun s it => processItem resolver now (insertOrderOnConflict db p).2 s it)
          (insertOrderOnConflict db p).1 with
        | Except.error e => Except.error e
        | Except.ok dbx => Except.ok (dbx, (insertOrderOnConflict db p).2))
        = Except.ok (db2, oid) := h
    cases hfold : p.lineItems.foldlM
        (fun s it => processItem resolver now (insertOrderOnConflict db p).2 s it)
        (insertOrderOnConflict db p).1 with
    | error e => rw [hfold] at hm; cases hm
    | ok dbf =>
        rw [hfold] at hm
        injection hm with h2
        injection h2 with hd ho
        refine ⟨hguard, ho.symm, ?_⟩
        rw [hd]

theorem processOrder_ok_order_row (resolver : String → Except Unit Hints) (now : Nat)
    (db : DB) (p : OrderPayload) (db2 : DB) (oid : Nat)
    (h : processOrder resolver now db p = .ok (db2, oid)) :
    ∃ o ∈ db2.orders, o.id = oid ∧ o.shopifyOrderId = p.shopifyOrderId := by
  obtain ⟨_, hoid, hfold⟩ := processOrder_ok_shape resolver now db p db2 oid h
  obtain ⟨o, hom, ho1, hsid⟩ := insertOrderOnConflict_mem db p
  have horders : db2.orders = (insertOrderOnConflict db p).1.orders :=
    foldlM_processItem_orders resolver now (insertOrderOnConflict db p).2
      p.lineItems (insertOrderOnConflict db p).1 db2 hfold
  exact ⟨o, horders ▸ hom, hoid ▸ ho1, hsid⟩

/-- C6: `processOrder` is all-or-nothing.  The body runs inside one
transaction (`runProcessOrder` models COMMIT of a successful body and
ROLLBACK on any thrown error, which is exactly the catch block of the
source): whenever the call errors — invalid payload, or the mid-transaction
Shopify metafield call failing on any line item — the caller's state is the
unchanged original; on success the order row with this payload's external id
and all its consumption rows are in the committed state together. -/
theorem process_order_atomic (resolver : String → Except Unit Hints) (now : Nat)
    (db : DB) (p : OrderPayload) :
    ((runProcessOrder resolver now db p).2.isOk = false →
        (runProcessOrder resolver now db p).1 = db)
  ∧ (∀ oid, (runProcessOrder resolver now db p).2 = .ok oid →
        ∃ o ∈ (runProcessOrder resolver now db p).1.orders,
          o.id = oid ∧ o.shopifyOrderId = p.shopifyOrderId) := by
  constructor
  · intro h
    cases hpo : processOrder resolver now db p with
    | ok r =>
        exfalso
        have hrw : runProcessOrder resolver now db p = (r.1, .ok r.2) := by
          unfold runProcessOrder; rw [hpo]
        rw [hrw] at h
        simp [Except.isOk, Except.toBool] at h
    | error e =>
        have hrw : runProcessOrder resolver now db p = (db, .error e) := by
          unfold runProcessOrder; rw [hpo]
        rw [hrw]
  · intro oid h
    cases hpo : processOrder resolver now db p with
    | error e =>
        have hrw : runProcessOrder resolver now db p = (db, .error e) := by
          unfold runProcessOrder; rw [hpo]
        rw [hrw] at h
        cases h
    | ok r =>
        have hrw : runProcessOrder resolver now db p = (r.1, .ok r.2) := by
          unfold runProcessOrder; rw [hpo]
        rw [hrw] at h ⊢
        injection h with h2
        subst h2
        exact processOrder_ok_order_row resolver now db p r.1 r.2 (by rw [hpo])

/-- C6 witness: a resolver outage while a shortfall order is processed rolls
everything back — the state after the failed call is the original one. -/
theorem process_order_atomic_witness :
    (runProcessOrder failingResolver 7 emptyStockDB orderPayload12).1 = emptyStockDB :=
  (process_order_atomic failingResolver 7 emptyStockDB orderPayload12).1 (by decide)

/-- C1 counterexample: submitting the same external order id twice is not
idempotent.  The second call succeeds (it does not error and creates no
second Order row), but it allocates again: afterwards there are two
consumption rows instead of one and batch 2 was decremented twice
(10 → 7 → 4), contradicting "the second call creates no new Consumption rows
and decrements no batch". -/
theorem order_idempotency_cex :
    ((processOrder failingResolver 0 stockedDB orderPayload3).bind
        (fun x => processOrder failingResolver 0 x.1 orderPayload3)).map
      (fun x => (x.1.orders.length, x.1.orderLineItems.length, x.1.batches.map Batch.quantity))
      = .ok (1, 2, [4]) := by decide

/-- C1 (amended): replaying an external order id that already has an Order
row never inserts a second Order row (`ON CONFLICT DO NOTHING`) and returns
the existing order's id instead of erroring — but the replay re-runs
allocation, appending new consumption rows to the existing order and
decrementing batches again (see the counterexample). -/
theorem order_replay_no_new_order (resolver : String → Except Unit Hints) (now : Nat)
    (db : DB) (p : OrderPayload) (o : Order)
    (hfind : db.orders.find? (fun x => decide (x.shopifyOrderId = p.shopifyOrderId)) = some o)
    (db2 : DB) (oid : Nat)
    (hok : processOrder resolver now db p = .ok (db2, oid)) :
    oid = o.id ∧ db2.orders = db.orders := by
  obtain ⟨_, hoid, hfold⟩ := processOrder_ok_shape resolver now db p db2 oid hok
  have hins : insertOrderOnConflict db p = (db, o.id) :=
    insertOrderOnConflict_existing db p o hfind
  constructor
  · rw [hoid, hins]
  · have horders : db2.orders = (insertOrderOnConflict db p).1.orders :=
      foldlM_processItem_orders resolver now (insertOrderOnConflict db p).2
        p.lineItems (insertOrderOnConflict db p).1 db2 hfold
    rw [horders, hins]

/-- C1 witness: replaying `orderPayload3` against the state that already
contains its order keeps the order relation unchanged and returns id 3. -/
theorem order_replay_no_new_order_witness :
    (3 : Nat) = (⟨3, "O1", some ("Alice"), 50⟩ : Order).id
    ∧ (⟨[sampleProduct], [⟨2, 1, "BN", some 10, 4, 0⟩],
        [⟨3, "O1", some ("Alice"), 50⟩], [⟨3, 1, 2, 3⟩, ⟨3, 1, 2, 3⟩], 4⟩ : DB).orders
      = replayDB.orders :=
  order_replay_no_new_order failingResolver 0 replayDB orderPayload3
    ⟨3, "O1", some ("Alice"), 50⟩ (by decide)
    ⟨[sampleProduct], [⟨2, 1, "BN", some 10, 4, 0⟩],
     [⟨3, "O1", some ("Alice"), 50⟩], [⟨3, 1, 2, 3⟩, ⟨3, 1, 2, 3⟩], 4⟩ 3 (by decide)

/-- C2 counterexample: the older `POST /api/orders` handler decrements a
synthesized batch by the full outstanding amount without a `min`: with no
stock, a default-batch-quantity hint of 5 and a request for 12 units, it
commits a batch whose remaining quantity is -7, violating "remaining
quantity is always ≥ 0" even though the initial state had no negative
batch. -/
theorem nonneg_invariant_cex :
    (processOrderV0 smallHintResolver 7 emptyStockDB orderPayload12).map
        (fun x => x.1.batches.map Batch.quantity) = .ok [-7]
    ∧ ∀ b ∈ emptyStockDB.batches, 0 ≤ b.quantity :=
  ⟨by decide, by decide⟩

/-- C2 (amended): the current `processOrder` path does preserve
non-negativity — starting from any well-formed state whose batches all have
remaining quantity ≥ 0, every batch still has remaining quantity ≥ 0 after a
successful call (each decrement takes `min` with the batch's remaining, and
the synthesized batch is decremented by at most its own quantity).  The
legacy route's synthesis step (see the counterexample) and the
create/update endpoints, which accept negative numbers directly, sit outside
this guarantee. -/
theorem process_order_preserves_nonneg (resolver : String → Except Unit Hints)
    (now : Nat) (db : DB) (p : OrderPayload)
    (hWF : BatchIdsWF db) (h0 : ∀ b ∈ db.batches, 0 ≤ b.quantity)
    (db2 : DB) (oid : Nat)
    (hok : processOrder resolver now db p = .ok (db2, oid)) :
    ∀ b ∈ db2.batches, 0 ≤ b.quantity := by
  obtain ⟨_, _, hfold⟩ := processOrder_ok_shape resolver now db p db2 oid hok
  have h01 : ∀ b ∈ (insertOrderOnConflict db p).1.batches, 0 ≤ b.quantity := by
    rw [insertOrderOnConflict_batches]; exact h0
  exact (foldlM_processItem_preserves resolver now (insertOrderOnConflict db p).2
    p.lineItems (insertOrderOnConflict db p).1 db2
    (insertOrderOnConflict_WF db p hWF) h01 hfold).2

/-- C2 witness: processing `orderPayload3` against `stockedDB` leaves the
decremented batch at 7 ≥ 0. -/
theorem process_order_preserves_nonneg_witness :
    (0 : Int) ≤ (⟨2, 1, "BN", some 10, 7, 0⟩ : Batch).quantity :=
  process_order_preserves_nonneg failingResolver 0 stockedDB orderPayload3
    (by unfold BatchIdsWF; decide) (by decide) replayDB 3 (by decide)
    ⟨2, 1, "BN", some 10, 7, 0⟩ (by decide)

/-- C7 counterexample: batch 2 of `consumedDB` has a consumption row against
it, yet the update request succeeds and overwrites its expiry date and
quantity — the route performs no consumption check, contradicting
"forbidden once any order has consumed from that batch". -/
theorem update_guard_cex :
    consumedDB.orderLineItems.any (fun li => decide (li.batchId = 2)) = true
  ∧ (updateBatch consumedDB 2 (some 99) (some (.num 3))).map
      (fun d => d.batches.map (fun b => (b.id, b.expiryDate, b.quantity)))
      = .ok [(2, some 99, 3)] :=
  ⟨by decide, by decide⟩

/-- C7 (amended): the administrative correction `PUT /api/batches/:id`
succeeds for every existing batch regardless of consumptions referencing it,
overwriting the expiry date and quantity with the parsed request values. -/
theorem update_ignores_consumptions (db : DB) (bid : Nat) (e : Option Nat) (q : Option QtyIn)
    (hex : db.batches.any (fun b => decide (b.id = bid)) = true)
    (hcons : ∃ li ∈ db.orderLineItems, li.batchId = bid) :
    updateBatch db bid e q
      = .ok { db with batches := db.batches.map (fun b =>
          if b.id = bid then { b with expiryDate := e, quantity := parseQtyOrZero q } else b) } := by
  unfold updateBatch
  rw [if_pos hex]

/-- C7 witness: the update of consumed batch 2 goes through with the parsed
values. -/
theorem update_ignores_consumptions_witness :
    updateBatch consumedDB 2 (some 99) (some (.num 3))
      = .ok { consumedDB with batches := consumedDB.batches.map (fun b =>
          if b.id = 2 then
            { b with expiryDate := some 99, quantity := parseQtyOrZero (some (.num 3)) }
          else b) } :=
  update_ignores_consumptions consumedDB 2 (some 99) (some (.num 3)) (by decide)
    ⟨⟨3, 1, 2, 3⟩, by decide, rfl⟩

theorem traceGE_total (a b : Nat × TraceRow) : (traceGE a b || traceGE b a) = true := by
  unfold traceGE
  split_ifs <;> simp <;> omega

theorem traceGE_trans (a b c : Nat × TraceRow) (h1 : traceGE a b = true)
    (h2 : traceGE b c = true) : traceGE a c = true := by
  unfold traceGE at *
  split_ifs at * <;> simp_all <;> omega

theorem traceGE_imp_date (a b : Nat × TraceRow) (h : traceGE a b = true) :
    b.2.date ≤ a.2.date := by
  unfold traceGE at h
  split_ifs at h with hd
  · omega
  · simp at h; omega

/-- C8 counterexample: with no consumption at all referencing a batch
number, the traceability lookup answers the 404 error, not the empty
sequence the claim requires. -/
theorem traceability_empty_cex :
    findOrdersByBatchNumber (⟨[], [], [], [], 0⟩ : DB) "BN" = .error .notFound
  ∧ ¬ findOrdersByBatchNumber (⟨[], [], [], [], 0⟩ : DB) "BN" = .ok ([] : List TraceRow) :=
  ⟨by decide, by decide⟩

/-- C8 (amended): the traceability lookup returns the rows
{orderId, customer, date, productName, quantity} of all orders that consumed
the batch, ordered by order date descending — but when no consumption
references the batch number it responds with a 404 error rather than an
empty sequence. -/
theorem traceability_rows_spec (db : DB) (bn : String) :
    (traceRows db bn = [] → findOrdersByBatchNumber db bn = .error .notFound)
  ∧ (traceRows db bn ≠ [] → findOrdersByBatchNumber db bn = .ok (traceRows db bn))
  ∧ (traceRows db bn).Pairwise (fun a b => b.date ≤ a.date)
  ∧ (∀ r, r ∈ traceRows db bn ↔ ∃ x ∈ joinRowsRaw db bn, x.2 = r) := by
  have hdef : findOrdersByBatchNumber db bn
      = if (traceRows db bn).isEmpty then .error .notFound else .ok (traceRows db bn) := rfl
  refine ⟨?_, ?_, ?_, ?_⟩
  · intro h
    rw [hdef, if_pos (by rw [List.isEmpty_iff]; exact h)]
  · intro h
    rw [hdef, if_neg (by rw [List.isEmpty_iff]; exact h)]
  · have hs := pairwise_orderBy traceGE traceGE_total traceGE_trans (joinRowsRaw db bn)
    unfold traceRows
    rw [List.pairwise_map]
    exact hs.imp (fun h => traceGE_imp_date _ _ h)
  · intro r
    unfold traceRows
    rw [List.mem_map]
    constructor
    · rintro ⟨x, hx, rfl⟩
      exact ⟨x, (mem_orderBy traceGE (joinRowsRaw db bn) x).mp hx, rfl⟩
    · rintro ⟨x, hx, rfl⟩
      exact ⟨x, (mem_orderBy traceGE (joinRowsRaw db bn) x).mpr hx, rfl⟩

/-- C8 witness: a batch number with one consumption yields the ordered,
non-empty row list. -/
theorem traceability_rows_spec_witness :
    findOrdersByBatchNumber consumedDB "BN" = .ok (traceRows consumedDB "BN") :=
  (traceability_rows_spec consumedDB "BN").2.1 (by decide)

/-- C5 counterexample: with no existing stock, a default-batch-quantity hint
of 5 and a request for 12 units, the synthesized batch is created with
initial quantity 5 — the hint value, not max(hint, outstanding) = 12 — so
only 5 units are consumed and the batch ends at 0, leaving 7 units
unfulfilled.  `synthQty` is the exact source expression
`defaultBatchQuantity ? parseInt(...) : 100`. -/
theorem synth_quantity_cex :
    synthQty ⟨some 30, some 5⟩ = 5
  ∧ ¬ synthQty ⟨some 30, some 5⟩ = max (5 : Int) 12
  ∧ (processOrder smallHintResolver 7 emptyStockDB orderPayload12).map
      (fun x => (x.1.batches.map Batch.quantity, x.1.orderLineItems.map LineItemRow.quantity))
      = .ok ([0], [5]) :=
  ⟨by decide, by decide, by decide⟩

/-- C5 (amended): for a single-line-item order whose requested quantity
exceeds all existing fulfillable stock of a known product, exactly one batch
is synthesized; its initial quantity is `synthQty hints` — the
default-batch-quantity hint when present, else 100, independent of the
outstanding requirement — and the consumption recorded against it is
`min(outstanding, synthQty hints)`, so the synthesized batch can be smaller
than the unmet remainder (see the counterexample). -/
theorem synthesis_single_batch (resolver : String → Except Unit Hints) (now : Nat)
    (db : DB) (p : OrderPayload) (item : LineItem) (prod : Product) (hints : Hints)
    (hid : ¬ p.shopifyOrderId = "")
    (hitems : p.lineItems = [item])
    (hprod : db.products.find? (fun x => decide (x.shopifyProductId = item.shopifyProductId))
        = some prod)
    (hres : resolver item.shopifyProductId = .ok hints)
    (hshort : ((fulfillableBatches db prod.id).map Batch.quantity).sum < item.quantity) :
    (processOrder resolver now db p).map (fun x => x.1.batches.length)
        = .ok (db.batches.length + 1)
  ∧ (processOrder resolver now db p).map (fun x => x.1.batches.getLast?.map Batch.quantity)
      = .ok (some (synthQty hints
          - min (item.quantity - ((fulfillableBatches db prod.id).map Batch.quantity).sum)
                (synthQty hints)))
  ∧ (processOrder resolver now db p).map
        (fun x => x.1.orderLineItems.getLast?.map LineItemRow.quantity)
      = .ok (some (min (item.quantity - ((fulfillableBatches db prod.id).map Batch.quantity).sum)
                (synthQty hints)))
  ∧ (∀ db2 oid, processOrder resolver now db p = .ok (db2, oid) →
        db2.orderLineItems.getLast?.map LineItemRow.batchId
          = db2.batches.getLast?.map Batch.id) := by
  -- abbreviations
  have hq0 : 0 ≤ ((fulfillableBatches db prod.id).map Batch.quantity).sum := by
    apply List.sum_nonneg
    intro x hx
    obtain ⟨c, hc, rfl⟩ := List.mem_map.mp hx
    exact le_of_lt ((fulfillableBatches_mem db prod.id c).mp hc).2.2
  -- the state after the order insert
  have hens : ensureProduct (insertOrderOnConflict db p).1 item
      = ((insertOrderOnConflict db p).1, prod.id, prod.sku) := by
    unfold ensureProduct
    rw [show (insertOrderOnConflict db p).1.products = db.products from
      insertOrderOnConflict_products db p]
    rw [hprod]
  have hcands : fulfillableBatches (insertOrderOnConflict db p).1 prod.id
      = fulfillableBatches db prod.id :=
    fulfillableBatches_congr _ _ _ (insertOrderOnConflict_batches db p)
  have hrest : (allocLoop (insertOrderOnConflict db p).2 prod.id item.quantity
        (fulfillableBatches (insertOrderOnConflict db p).1 prod.id)
        (insertOrderOnConflict db p).1).2
      = item.quantity - ((fulfillableBatches db prod.id).map Batch.quantity).sum := by
    rw [allocLoop_snd, hcands]
    rw [allocPicksSpec_sum (insertOrderOnConflict db p).2 prod.id
      (fulfillableBatches db prod.id) item.quantity (by omega)
      (fun c hc => le_of_lt ((fulfillableBatches_mem db prod.id c).mp hc).2.2)]
    omega
  have hpos : 0 < (allocLoop (insertOrderOnConflict db p).2 prod.id item.quantity
        (fulfillableBatches (insertOrderOnConflict db p).1 prod.id)
        (insertOrderOnConflict db p).1).2 := by
    rw [hrest]; omega
  -- processItem takes the synthesis branch
  have hpi : processItem resolver now (insertOrderOnConflict db p).2
        (insertOrderOnConflict db p).1 item
      = .ok (synthesizeAndConsume hints now (insertOrderOnConflict db p).2 prod.id prod.sku
          (allocLoop (insertOrderOnConflict db p).2 prod.id item.quantity
            (fulfillableBatches (insertOrderOnConflict db p).1 prod.id)
            (insertOrderOnConflict db p).1).2
          (allocLoop (insertOrderOnConflict db p).2 prod.id item.quantity
            (fulfillableBatches (insertOrderOnConflict db p).1 prod.id)
            (insertOrderOnConflict db p).1).1) := by
    simp only [processItem, hens]
    rw [if_pos hpos, hres]
  have hguard : ¬ (p.shopifyOrderId = "" ∨ p.lineItems = []) := by
    rw [hitems]; simp [hid]
  have hfold : p.lineItems.foldlM
        (fun s it => processItem resolver now (insertOrderOnConflict db p).2 s it)
        (insertOrderOnConflict db p).1
      = .ok (synthesizeAndConsume hints now (insertOrderOnConflict db p).2 prod.id prod.sku
          (allocLoop (insertOrderOnConflict db p).2 prod.id item.quantity
            (fulfillableBatches (insertOrderOnConflict db p).1 prod.id)
            (insertOrderOnConflict db p).1).2
          (allocLoop (insertOrderOnConflict db p).2 prod.id item.quantity
            (fulfillableBatches (insertOrderOnConflict db p).1 prod.id)
            (insertOrderOnConflict db p).1).1) := by
    rw [hitems, List.foldlM_cons, hpi, exceptBind_ok, List.foldlM_nil]
    rfl
  have hpo : processOrder resolver now db p
      = .ok (synthesizeAndConsume hints now (insertOrderOnConflict db p).2 prod.id prod.sku
          (allocLoop (insertOrderOnConflict db p).2 prod.id item.quantity
            (fulfillableBatches (insertOrderOnConflict db p).1 prod.id)
            (insertOrderOnConflict db p).1).2
          (allocLoop (insertOrderOnConflict db p).2 prod.id item.quantity
            (fulfillableBatches (insertOrderOnConflict db p).1 prod.id)
            (insertOrderOnConflict db p).1).1,
        (insertOrderOnConflict db p).2) := by
    unfold processOrder
    rw [if_neg hguard]
    show (match p.lineItems.foldlM
          (fun s it => processItem resolver now (insertOrderOnConflict db p).2 s it)
          (insertOrderOnConflict db p).1 with
        | Except.error e => Except.error e
        | Except.ok dbx => Except.ok (dbx, (insertOrderOnConflict db p).2)) = _
    rw [hfold]
  refine ⟨?_, ?_, ?_, ?_⟩
  · rw [hpo]
    simp only [Except.map]
    rw [synthesizeAndConsume_batches]
    simp only [List.length_append, List.length_map]
    rw [allocLoop_batches_length, insertOrderOnConflict_batches]
    rfl
  · rw [hpo]
    simp only [Except.map]
    rw [synthesizeAndConsume_batches, List.getLast?_concat]
    rw [hrest]
    rfl
  · rw [hpo]
    simp only [Except.map]
    rw [synthesizeAndConsume_lineItems, List.getLast?_concat]
    rw [hrest]
    rfl
  · intro db2 oid2 hpo2
    rw [hpo] at hpo2
    injection hpo2 with h2
    injection h2 with hd ho
    subst hd
    rw [synthesizeAndConsume_lineItems, synthesizeAndConsume_batches,
      List.getLast?_concat, List.getLast?_concat]
    rfl

/-- C5 witness: the amended statement instantiated on the counterexample
state — exactly one batch is created there. -/
theorem synthesis_single_batch_witness :
    (processOrder smallHintResolver 7 emptyStockDB orderPayload12).map
        (fun x => x.1.batches.length)
      = .ok (emptyStockDB.batches.length + 1) :=
  (synthesis_single_batch smallHintResolver 7 emptyStockDB orderPayload12
    ⟨"P1", some ("Prod"), some ("SKU"), 12⟩ sampleProduct ⟨some 30, some 5⟩
    (by decide) rfl (by decide) rfl (by decide)).1
